import Mathlib

/-!
# Maestro timer library: a shallow embedding

This file embeds the Timer / Group state machines of the maestro
callback-scheduling library and proves (or refutes) the frozen claims
about them.

Modelling conventions:
* Millisecond durations and monotonic timestamps are rationals (`ℚ`);
  the JS code performs exact arithmetic on `performance.now()` readings
  and the unit tests drive the clock with integer values.
* `setTimeout` handles are naturals allocated from a counter starting at
  1, so a stored handle is never the falsy id `0`: the JS truthiness
  test `if (this.state.timeoutId ...)` is the `Option.isSome` test here.
* The host scheduler is explicit: a `World` holds the single timer under
  scrutiny, the current monotonic time, the live (not yet cancelled, not
  yet fired) timeout handles, the number of queued microtask fires
  (`queueMicrotask` closures from the delay-0 path), and a count of
  callback invocations.  Running a pending fire is a separate step
  (`fireTimeout` / `runMicrotask`), mirroring the event loop.
-/

/-- The `state` record of a Timer (`TimerState` in the source):
`startTime`, `remainingTime`, `timeoutId`, `isPaused`, `isCompleted`. -/
structure TimerState where
  startTime : ℚ
  remainingTime : ℚ
  timeoutId : Option Nat
  isPaused : Bool
  isCompleted : Bool
deriving Repr, DecidableEq

/-- A Timer: its fixed `delay` plus the mutable state record.  The
callback, context and args are invisible to the state machine; callback
invocations are counted in the surrounding `World`. -/
structure Timer where
  delay : ℚ
  state : TimerState
deriving Repr, DecidableEq

namespace Timer

/-- The state record a freshly constructed Timer gets:
`{ startTime: 0, remainingTime: delay, timeoutId: null, isPaused: false,
isCompleted: false }` (before any `autoStart`). -/
def new (delay : ℚ) : Timer :=
  { delay := delay
    state := { startTime := 0, remainingTime := delay, timeoutId := none
               isPaused := false, isCompleted := false } }

/-- The state-record part of `Timer.start()`: unless resuming from a
pause, `remainingTime` is reset to the full `delay`; `isPaused` is
cleared and `startTime` is set to the current monotonic time.  For a
non-zero delay a `setTimeout` handle `h` is stored in `timeoutId`; the
delay-0 path queues a microtask and stores no handle.  The scheduling
side effects live in `World.start`. -/
def startCore (now : ℚ) (h : Nat) (t : Timer) : Timer :=
  let rem := if t.state.isPaused then t.state.remainingTime else t.delay
  if t.delay = 0 then
    { t with state := { t.state with
        remainingTime := rem, isPaused := false, startTime := now } }
  else
    { t with state := { t.state with
        remainingTime := rem, isPaused := false, startTime := now
        timeoutId := some h } }

/-- `getRemainingTime()`: the frozen `remainingTime` while paused,
otherwise `max(0, remainingTime - (now - startTime))`. -/
def getRemainingTime (now : ℚ) (t : Timer) : ℚ :=
  if t.state.isPaused then t.state.remainingTime
  else max 0 (t.state.remainingTime - (now - t.state.startTime))

/-- `isActive()`: `!!this.state.timeoutId && !this.state.isCompleted`.
Stored handles are never 0, so JS truthiness of `timeoutId` is
`Option.isSome`. -/
def isActive (t : Timer) : Bool :=
  t.state.timeoutId.isSome && !t.state.isCompleted

end Timer

/-- The host world around one timer: current monotonic time, the next
fresh `setTimeout` handle, the live timeout handles, the queued
microtask fires, and how many times the timer callback has run. -/
structure World where
  timer : Timer
  now : ℚ
  nextHandle : Nat
  pending : List Nat
  micro : Nat
  fired : Nat
deriving Repr, DecidableEq

namespace World

/-- Monotonic time passing: only the clock advances. -/
def tick (w : World) (d : ℚ) : World := { w with now := w.now + d }

/-- `Timer.start()` with its scheduling effects: delay 0 queues a
microtask (no handle); otherwise a fresh `setTimeout` handle is
allocated, stored in `timeoutId` and added to the live set. -/
def start (w : World) : World :=
  if w.timer.delay = 0 then
    { w with timer := w.timer.startCore w.now 0, micro := w.micro + 1 }
  else
    { w with timer := w.timer.startCore w.now w.nextHandle
             nextHandle := w.nextHandle + 1
             pending := w.nextHandle :: w.pending }

/-- `Timer.pause()`: only acts when a handle is stored and the timer is
not already paused; then the pending wake-up is cancelled
(`clearTimeout`), `remainingTime` becomes `max(0, remainingTime -
elapsed)` and `isPaused` is set.  Note: `state.timeoutId` is NOT
cleared by the source. -/
def pause (w : World) : World :=
  match w.timer.state.timeoutId with
  | some h =>
    if w.timer.state.isPaused then w
    else
      { w with
        pending := w.pending.filter (fun x => x ≠ h)
        timer := { w.timer with state := { w.timer.state with
          remainingTime :=
            max 0 (w.timer.state.remainingTime - (w.now - w.timer.state.startTime))
          isPaused := true } } }
  | none => w

/-- `Timer._handleComplete()` restricted to one timer: invoke the
callback (count it), set `isCompleted`, then `_cleanup()` nulls the
handle and zeroes `startTime` / `remainingTime`. -/
def handleComplete (w : World) : World :=
  { w with fired := w.fired + 1
           timer := { w.timer with state := { w.timer.state with
             isCompleted := true, timeoutId := none
             startTime := 0, remainingTime := 0 } } }

/-- `Timer.reset(autoStart)`: cancel the stored handle if any,
reinstall the pristine state record, and optionally `start()`. -/
def reset (w : World) (autoStart : Bool) : World :=
  let w1 :=
    match w.timer.state.timeoutId with
    | some h => { w with pending := w.pending.filter (fun x => x ≠ h) }
    | none => w
  let w2 := { w1 with timer := { w1.timer with state :=
    { startTime := 0, remainingTime := w.timer.delay, timeoutId := none
      isPaused := false, isCompleted := false } } }
  if autoStart then w2.start else w2

/-- The event loop runs the `setTimeout` closure of handle `h` (if it
is still live): the closure checks `isPaused` at fire time and then
runs `_handleComplete`. -/
def fireTimeout (w : World) (h : Nat) : World :=
  if h ∈ w.pending then
    let w1 := { w with pending := w.pending.filter (fun x => x ≠ h) }
    if w1.timer.state.isPaused then w1 else w1.handleComplete
  else w

/-- The event loop runs one queued microtask (the delay-0 fire path):
the closure checks `isPaused` at fire time and then runs
`_handleComplete`. -/
def runMicrotask (w : World) : World :=
  match w.micro with
  | 0 => w
  | n + 1 =>
    let w1 := { w with micro := n }
    if w1.timer.state.isPaused then w1 else w1.handleComplete

/-- Constructing a Timer in a fresh world (`new Timer(cb, {delay, autoStart})`). -/
def init (delay : ℚ) (autoStart : Bool) : World :=
  let w : World :=
    { timer := Timer.new delay, now := 0, nextHandle := 1
      pending := [], micro := 0, fired := 0 }
  if autoStart then w.start else w

/-- One pause/start cycle: some time passes while paused, the timer is
resumed with `start()`, time `e` elapses, and the timer is paused
again. -/
def cycle (w : World) (gap e : ℚ) : World :=
  (((w.tick gap).start).tick e).pause

/-- A sequence of pause/start cycles. -/
def cycles : World → List (ℚ × ℚ) → World
  | w, [] => w
  | w, p :: rest => cycles (w.cycle p.1 p.2) rest

end World

/-! ## C1: pause/resume elapsed-time accounting -/

/-- Flooring at zero once inside is absorbed by the outer floor, as long
as the further decrement is non-negative. -/
lemma max_zero_sub_collapse (x b : ℚ) (hb : 0 ≤ b) :
    max 0 (max 0 x - b) = max 0 (x - b) := by
  rcases le_total x 0 with h | h
  · rw [max_eq_left h]
    rw [max_eq_left (by linarith), max_eq_left (by linarith)]
  · rw [max_eq_right h]

/-- A pause/start cycle on a paused timer with non-zero delay leaves it
paused, decrements the remaining time by the elapsed amount (floored at
zero), and preserves the delay. -/
lemma cycle_paused_step (w : World) (g e : ℚ) (hp : w.timer.state.isPaused = true)
    (hd : w.timer.delay ≠ 0) :
    (w.cycle g e).timer.state.isPaused = true ∧
    (w.cycle g e).timer.state.remainingTime
      = max 0 (w.timer.state.remainingTime - e) ∧
    (w.cycle g e).timer.delay = w.timer.delay := by
  simp only [World.cycle, World.tick, World.start, World.pause, Timer.startCore, hp, hd,
    if_false, if_true, ite_true, ite_false]
  norm_num [hd]

/-- Repeated pause/start cycles on a paused timer subtract the total
elapsed time, floored at zero once: no drift accumulates. -/
lemma cycles_paused (Es : List (ℚ × ℚ)) (w : World)
    (hp : w.timer.state.isPaused = true)
    (hd : w.timer.delay ≠ 0)
    (hr : 0 ≤ w.timer.state.remainingTime)
    (hEs : ∀ p ∈ Es, 0 ≤ p.2) :
    (World.cycles w Es).timer.state.remainingTime
      = max 0 (w.timer.state.remainingTime - (Es.map Prod.snd).sum) := by
  induction Es generalizing w with
  | nil => simpa [World.cycles] using (max_eq_right hr).symm
  | cons p rest ih =>
    obtain ⟨h1, h2, h3⟩ := cycle_paused_step w p.1 p.2 hp hd
    have hrest : ∀ q ∈ rest, 0 ≤ q.2 := fun q hq => hEs q (List.mem_cons_of_mem _ hq)
    have hsum : 0 ≤ (rest.map Prod.snd).sum :=
      List.sum_nonneg (by intro x hx; obtain ⟨q, hq, rfl⟩ := List.mem_map.mp hx; exact hrest q hq)
    have := ih (w.cycle p.1 p.2) h1 (h3 ▸ hd) (h2 ▸ le_max_left 0 _) hrest
    rw [World.cycles, this, h2, max_zero_sub_collapse _ _ hsum]
    rw [List.map_cons, List.sum_cons]
    ring_nf

/-- C1: for a Timer started with remaining time `R` at monotonic time
`s` (so `startTime = s = now`), with a pending wake-up handle `h` and a
non-zero delay, `pause()` after elapsed `E = now - s` cancels the
pending wake-up and freezes `remainingTime` at `max(0, R - E)`;
`getRemainingTime()` returns exactly this frozen value (at any later
clock reading) while paused; and across further pause/start cycles with
elapsed times `E2, E3, ...` the remaining time after each pause equals
`max(0, R - E - E2 - ...)`, with no drift. -/
theorem timer_pause_accounting (w : World) (h : Nat) (E : ℚ) (Es : List (ℚ × ℚ))
    (hp : w.timer.state.isPaused = false)
    (hh : w.timer.state.timeoutId = some h)
    (hpend : h ∈ w.pending)
    (hs : w.timer.state.startTime = w.now)
    (hd : w.timer.delay ≠ 0)
    (hE : 0 ≤ E)
    (hEs : ∀ p ∈ Es, 0 ≤ p.2) :
    h ∉ ((w.tick E).pause).pending ∧
    ((w.tick E).pause).timer.state.isPaused = true ∧
    ((w.tick E).pause).timer.state.remainingTime
      = max 0 (w.timer.state.remainingTime - E) ∧
    (∀ n, Timer.getRemainingTime n ((w.tick E).pause).timer
      = max 0 (w.timer.state.remainingTime - E)) ∧
    (World.cycles ((w.tick E).pause) Es).timer.state.remainingTime
      = max 0 (w.timer.state.remainingTime - (E + (Es.map Prod.snd).sum)) := by
  have hpause : (w.tick E).pause =
      { w with
        now := w.now + E
        pending := w.pending.filter (fun x => x ≠ h)
        timer := { w.timer with state := { w.timer.state with
          remainingTime := max 0 (w.timer.state.remainingTime - E)
          isPaused := true } } } := by
    simp only [World.tick, World.pause, hh, hp]
    norm_num [hs]
  refine ⟨?_, ?_, ?_, ?_, ?_⟩
  · rw [hpause]; simp
  · rw [hpause]
  · rw [hpause]
  · intro n; rw [hpause]; simp [Timer.getRemainingTime]
  · have h1 : ((w.tick E).pause).timer.state.isPaused = true := by rw [hpause]
    have h2 : ((w.tick E).pause).timer.delay ≠ 0 := by rw [hpause]; exact hd
    have h3 : ((w.tick E).pause).timer.state.remainingTime
        = max 0 (w.timer.state.remainingTime - E) := by rw [hpause]
    have h4 : 0 ≤ ((w.tick E).pause).timer.state.remainingTime := by
      rw [h3]; exact le_max_left 0 _
    rw [cycles_paused Es _ h1 h2 h4 hEs, h3,
      max_zero_sub_collapse _ _ (List.sum_nonneg (by
        intro x hx
        obtain ⟨q, hq, rfl⟩ := List.mem_map.mp hx
        exact hEs q hq))]
    ring_nf

/-- Witness for C1: a timer with delay 1000 auto-started at time 0,
paused after 250 ms, resumed after a 7 ms gap and paused again after a
further 250 ms, has remaining time `max 0 (1000 - (250 + 250)) = 500`. -/
theorem timer_pause_accounting_witness :
    (World.cycles (((World.init 1000 true).tick 250).pause) [(7, 250)]).timer.state.remainingTime
      = max 0 ((World.init 1000 true).timer.state.remainingTime
          - (250 + (([((7 : ℚ), (250 : ℚ))]).map Prod.snd).sum)) ∧
    (World.cycles (((World.init 1000 true).tick 250).pause) [(7, 250)]).timer.state.remainingTime
      = 500 := by
  have hW : World.init 1000 true =
      ⟨⟨1000, ⟨0, 1000, some 1, false, false⟩⟩, 0, 2, [1], 0, 0⟩ := by
    norm_num [World.init, World.start, Timer.new, Timer.startCore]
  have hmain := timer_pause_accounting (World.init 1000 true) 1 250 [(7, 250)]
    (by rw [hW]) (by rw [hW]) (by rw [hW]; simp) (by rw [hW])
    (by rw [hW]; norm_num) (by norm_num) (by norm_num)
  refine ⟨hmain.2.2.2.2, ?_⟩
  rw [hmain.2.2.2.2, hW]
  norm_num [max_def]

/-! ## C4: isActive and pause -/

/-- Counterexample to C4: a timer with delay 1000, auto-started and then
paused, is paused yet still reports `isActive() = true`, because
`pause()` cancels the wake-up with `clearTimeout` but never clears the
`state.timeoutId` field that `isActive()` tests. -/
theorem isActive_paused_counterexample :
    ((World.init 1000 true).pause).timer.state.isPaused = true ∧
    ((World.init 1000 true).pause).timer.isActive = true := by
  have hW : World.init 1000 true =
      ⟨⟨1000, ⟨0, 1000, some 1, false, false⟩⟩, 0, 2, [1], 0, 0⟩ := by
    norm_num [World.init, World.start, Timer.new, Timer.startCore]
  rw [hW]
  constructor
  · norm_num [World.pause]
  · norm_num [World.pause, Timer.isActive]

/-- C4 amended: `isActive()` is the conjunction of a non-null
`timeoutId` field and not-completed.  On a running timer `pause()`
cancels the pending wake-up but leaves the `timeoutId` field set, so a
paused, not-completed timer still has `isActive() = true`. -/
theorem isActive_while_paused (w : World) (h : Nat)
    (hh : w.timer.state.timeoutId = some h)
    (hp : w.timer.state.isPaused = false)
    (hc : w.timer.state.isCompleted = false) :
    (w.pause).timer.state.isPaused = true ∧
    (w.pause).timer.state.timeoutId = some h ∧
    h ∉ (w.pause).pending ∧
    (w.pause).timer.isActive = true := by
  simp [World.pause, hh, hp, Timer.isActive, hc]

/-- Witness for the amended C4 on the delay-1000 auto-started timer. -/
theorem isActive_while_paused_witness :
    ((World.init 1000 true).pause).timer.state.timeoutId = some 1 ∧
    ((World.init 1000 true).pause).timer.isActive = true := by
  have hW : World.init 1000 true =
      ⟨⟨1000, ⟨0, 1000, some 1, false, false⟩⟩, 0, 2, [1], 0, 0⟩ := by
    norm_num [World.init, World.start, Timer.new, Timer.startCore]
  have hmain := isActive_while_paused (World.init 1000 true) 1
    (by rw [hW]) (by rw [hW]) (by rw [hW])
  exact ⟨hmain.2.1, hmain.2.2.2⟩

/-! ## C7: cancellation of the scheduled fire; C10: delay-0 pause -/

/-- A handle is never in the list it was just filtered out of. -/
lemma not_mem_filter_ne (l : List Nat) (h : Nat) :
    h ∉ l.filter (fun x => x ≠ h) := by
  simp [List.mem_filter]

/-- Counterexample to C7: a timer constructed with delay 0 and
auto-started queues its fire as a microtask and stores no handle, so
`pause()` is a no-op; when the queued fire then runs, it executes the
callback (the fired count goes from 0 to 1) even though `pause()` had
already returned. -/
theorem cancel_fire_counterexample :
    (World.init 0 true).fired = 0 ∧
    (((World.init 0 true).pause).runMicrotask).fired = 1 ∧
    (((World.init 0 true).pause).runMicrotask).timer.state.isCompleted = true := by
  have hW : World.init 0 true =
      ⟨⟨0, ⟨0, 0, none, false, false⟩⟩, 0, 1, [], 1, 0⟩ := by
    norm_num [World.init, World.start, Timer.new, Timer.startCore]
  rw [hW]
  norm_num [World.pause, World.runMicrotask, World.handleComplete]

/-- C7 amended: when the preceding `start()` stored a `setTimeout`
handle `h` (the non-zero-delay path), both `pause()` and `reset()`
cancel the pending wake-up synchronously: after either returns, running
the fire of handle `h` is a no-op, so the callback never executes.  The
side condition `h < nextHandle` says `h` was allocated by the scheduler
(a `reset(true)` reschedules under a strictly fresher handle). -/
theorem cancel_fire_after_pause_or_reset (w : World) (h : Nat)
    (hh : w.timer.state.timeoutId = some h)
    (hp : w.timer.state.isPaused = false)
    (hfresh : h < w.nextHandle) :
    (w.pause).fireTimeout h = w.pause ∧
    ∀ b, (w.reset b).fireTimeout h = w.reset b := by
  constructor
  · have : h ∉ (w.pause).pending := by
      simp only [World.pause, hh, hp, Bool.false_eq_true, if_false]
      exact not_mem_filter_ne _ _
    simp [World.fireTimeout, this]
  · intro b
    have : h ∉ (w.reset b).pending := by
      cases b with
      | false =>
        simp only [World.reset, hh, Bool.false_eq_true, if_false]
        exact not_mem_filter_ne _ _
      | true =>
        simp only [World.reset, hh, if_true]
        by_cases hd : w.timer.delay = 0
        · simp only [World.start, hd, if_pos]
          exact not_mem_filter_ne _ _
        · simp only [World.start, hd, if_false, ite_false]
          intro hmem
          rcases List.mem_cons.mp hmem with heq | hmem2
          · exact absurd heq (Nat.ne_of_lt hfresh)
          · exact not_mem_filter_ne _ _ hmem2
    simp [World.fireTimeout, this]

/-- Witness for the amended C7: the delay-1000 auto-started timer,
paused, and separately reset without restart; in both worlds firing the
stale handle 1 changes nothing. -/
theorem cancel_fire_after_pause_or_reset_witness :
    ((World.init 1000 true).pause).fireTimeout 1 = (World.init 1000 true).pause ∧
    ((World.init 1000 true).reset false).fireTimeout 1 = (World.init 1000 true).reset false := by
  have hW : World.init 1000 true =
      ⟨⟨1000, ⟨0, 1000, some 1, false, false⟩⟩, 0, 2, [1], 0, 0⟩ := by
    norm_num [World.init, World.start, Timer.new, Timer.startCore]
  have hmain := cancel_fire_after_pause_or_reset (World.init 1000 true) 1
    (by rw [hW]) (by rw [hW]) (by rw [hW]; norm_num)
  exact ⟨hmain.1, hmain.2 false⟩

/-- C10: a started delay-0 timer holds no wake-up handle, so `pause()`
is the identity on the whole world (in particular every field of the
state record, `isPaused` included, is unchanged); the queued microtask
fire still executes the callback and marks the timer completed.  The
last conjunct is the reason: the delay-0 branch of `start()` never
stores a handle. -/
theorem delay_zero_pause_frame (w : World)
    (hh : w.timer.state.timeoutId = none)
    (hp : w.timer.state.isPaused = false)
    (hm : 0 < w.micro) :
    w.pause = w ∧
    (w.pause).timer.state.isPaused = false ∧
    ((w.pause).runMicrotask).fired = w.fired + 1 ∧
    ((w.pause).runMicrotask).timer.state.isCompleted = true ∧
    (∀ v : World, v.timer.delay = 0 →
      (v.start).timer.state.timeoutId = v.timer.state.timeoutId) := by
  have hid : w.pause = w := by
    simp [World.pause, hh]
  obtain ⟨n, hn⟩ : ∃ n, w.micro = n + 1 :=
    ⟨w.micro - 1, (Nat.succ_pred_eq_of_pos hm).symm⟩
  refine ⟨hid, by rw [hid]; exact hp, ?_, ?_, ?_⟩
  · rw [hid]
    simp [World.runMicrotask, hn, hp, World.handleComplete]
  · rw [hid]
    simp [World.runMicrotask, hn, hp, World.handleComplete]
  · intro v hv
    simp [World.start, hv, Timer.startCore, hv]

/-- Witness for C10 at the auto-started delay-0 timer. -/
theorem delay_zero_pause_frame_witness :
    (World.init 0 true).pause = World.init 0 true ∧
    (((World.init 0 true).pause).runMicrotask).timer.state.isCompleted = true := by
  have hW : World.init 0 true =
      ⟨⟨0, ⟨0, 0, none, false, false⟩⟩, 0, 1, [], 1, 0⟩ := by
    norm_num [World.init, World.start, Timer.new, Timer.startCore]
  have hmain := delay_zero_pause_frame (World.init 0 true)
    (by rw [hW]) (by rw [hW]) (by rw [hW]; norm_num)
  exact ⟨hmain.1, hmain.2.2.2.1⟩

/-! ## C3: restartSynchronized; C6: startAll -/

/-- `Math.max` over a list of delays (all uses in the source are on a
nonempty member list, so the empty default is never exercised). -/
def listMax : List ℚ → ℚ
  | [] => 0
  | x :: xs => xs.foldl max x

namespace Group

/-- `Group.restartSynchronized()` over the member list: compute the
maximum member delay, then for each member (in insertion order) set
`state.remainingTime := maxDelay * (getRemainingTime() / delay)` and
call `start()`.  The ratio is read before the mutation, as in the
source.  The fresh `setTimeout` handle each `start()` allocates is
irrelevant to the time accounting, so handle 1 is passed throughout. -/
def restartSynchronized (now : ℚ) (ts : List Timer) : List Timer :=
  let maxDelay := listMax (ts.map (fun t => t.delay))
  ts.map (fun t =>
    Timer.startCore now 1
      { t with state := { t.state with
          remainingTime := maxDelay * (Timer.getRemainingTime now t / t.delay) } })

/-- `Group.startAll()`: when `synchronous` is set the source hits an
empty `TODO` branch and starts nothing; otherwise it calls `start()` on
every member in insertion order, the i-th call allocating a fresh
handle `h0 + i`. -/
def startAll (now : ℚ) (h0 : Nat) (synchronous : Bool) (ts : List Timer) : List Timer :=
  if synchronous then ts
  else ts.mapIdx (fun i t => Timer.startCore now (h0 + i) t)

end Group

/-- Counterexample to C3: two RUNNING (not paused) members with delays
1000 and 2000, both just started at time 0 (progress ratio 1).  The
claim predicts both end with `remainingTime = maxDelay * ratio = 2000`,
but `start()` overwrites `remainingTime` with the member delay for any
non-paused timer, so the members end with 1000 and 2000. -/
theorem restartSynchronized_counterexample :
    (Group.restartSynchronized 0
        [⟨1000, ⟨0, 1000, some 1, false, false⟩⟩,
         ⟨2000, ⟨0, 2000, some 2, false, false⟩⟩]).map
        (fun t => t.state.remainingTime) = [1000, 2000] ∧
    listMax ([⟨1000, ⟨0, 1000, some 1, false, false⟩⟩,
              (⟨2000, ⟨0, 2000, some 2, false, false⟩⟩ : Timer)].map (fun t => t.delay))
        * (Timer.getRemainingTime 0 ⟨1000, ⟨0, 1000, some 1, false, false⟩⟩ / (1000 : ℚ))
      = 2000 ∧
    ((1000 : ℚ) ≠ 2000) := by
  refine ⟨?_, ?_, by norm_num⟩
  · norm_num [Group.restartSynchronized, Timer.getRemainingTime, Timer.startCore,
      listMax, max_def]
  · norm_num [Timer.getRemainingTime, listMax, max_def]

/-- C3 amended: when every member is paused (and has non-zero delay),
`restartSynchronized()` restarts each member with
`remainingTime = maxDelay * (getRemainingTime() / delay)`: for paused
members `start()` keeps the stored remaining time instead of
overwriting it with the delay. -/
theorem restartSynchronized_paused (now : ℚ) (ts : List Timer)
    (hts : ∀ t ∈ ts, t.state.isPaused = true ∧ t.delay ≠ 0) :
    List.Forall₂ (fun t t2 =>
      t2.state.remainingTime
        = listMax (ts.map (fun x => x.delay)) * (Timer.getRemainingTime now t / t.delay) ∧
      t2.state.isPaused = false ∧
      t2.state.startTime = now ∧
      t2.state.timeoutId = some 1)
      ts (Group.restartSynchronized now ts) := by
  rw [Group.restartSynchronized, List.forall₂_map_right_iff]
  refine List.forall₂_same.mpr ?_
  intro t ht
  obtain ⟨hp, hd⟩ := hts t ht
  simp [Timer.startCore, hp, hd, Timer.getRemainingTime]

/-- Witness for the amended C3: paused members with delays 1000 and
2000, each at progress ratio 1/2 (remaining 500 and 1000): after
`restartSynchronized()` both have `remainingTime = 1000`. -/
theorem restartSynchronized_paused_witness :
    List.Forall₂ (fun t t2 =>
      t2.state.remainingTime
        = listMax ([⟨1000, ⟨0, 500, some 1, true, false⟩⟩,
                    (⟨2000, ⟨0, 1000, some 2, true, false⟩⟩ : Timer)].map (fun x => x.delay))
            * (Timer.getRemainingTime 0 t / t.delay) ∧
      t2.state.isPaused = false ∧
      t2.state.startTime = 0 ∧
      t2.state.timeoutId = some 1)
      [⟨1000, ⟨0, 500, some 1, true, false⟩⟩,
       (⟨2000, ⟨0, 1000, some 2, true, false⟩⟩ : Timer)]
      (Group.restartSynchronized 0
        [⟨1000, ⟨0, 500, some 1, true, false⟩⟩,
         (⟨2000, ⟨0, 1000, some 2, true, false⟩⟩ : Timer)]) ∧
    (Group.restartSynchronized 0
        [⟨1000, ⟨0, 500, some 1, true, false⟩⟩,
         (⟨2000, ⟨0, 1000, some 2, true, false⟩⟩ : Timer)]).map
        (fun t => t.state.remainingTime) = [1000, 1000] := by
  constructor
  · exact restartSynchronized_paused 0 _ (by
      intro t ht
      simp only [List.mem_cons, List.not_mem_nil, or_false] at ht
      rcases ht with rfl | rfl
      · exact ⟨rfl, by norm_num⟩
      · exact ⟨rfl, by norm_num⟩)
  · norm_num [Group.restartSynchronized, Timer.getRemainingTime, Timer.startCore,
      listMax, max_def]

/-- Counterexample to C6: on a synchronous Group the `startAll()`
branch is an empty TODO, so a never-started member is returned
unchanged (handle still `none`), not started: the claimed concurrent
fallback would have stored a fresh handle. -/
theorem startAll_sync_counterexample :
    Group.startAll 0 5 true [Timer.new 1000] = [Timer.new 1000] ∧
    Group.startAll 0 5 true [Timer.new 1000] ≠ [Timer.startCore 0 5 (Timer.new 1000)] ∧
    (Timer.new 1000).state.timeoutId = none ∧
    (Timer.startCore 0 5 (Timer.new 1000)).state.timeoutId = some 5 := by
  have hs : (Timer.startCore 0 5 (Timer.new 1000)).state.timeoutId = some 5 := by
    norm_num [Timer.startCore, Timer.new]
  refine ⟨rfl, ?_, rfl, hs⟩
  intro heq
  have h1 : Timer.new 1000 = Timer.startCore 0 5 (Timer.new 1000) := by
    have h0 := congrArg List.head? heq
    simpa [Group.startAll] using h0
  have h2 := congrArg (fun t : Timer => t.state.timeoutId) h1
  simp only at h2
  rw [hs] at h2
  simp [Timer.new] at h2

/-- C6 amended: `startAll()` on a non-synchronous Group starts every
member in insertion order (the i-th member is exactly `start()` applied
to it); on a synchronous Group the sequential branch is an empty stub
and every member is left unchanged. -/
theorem startAll_behavior (now : ℚ) (h0 : Nat) (ts : List Timer) (i : Nat)
    (hi : i < ts.length) :
    Group.startAll now h0 true ts = ts ∧
    (Group.startAll now h0 false ts).length = ts.length ∧
    (Group.startAll now h0 false ts).get ⟨i, by simpa [Group.startAll] using hi⟩
      = Timer.startCore now (h0 + i) (ts.get ⟨i, hi⟩) := by
  refine ⟨rfl, by simp [Group.startAll], ?_⟩
  simp [Group.startAll, List.getElem_mapIdx]

/-- Witness for the amended C6 on a one-member group. -/
theorem startAll_behavior_witness :
    Group.startAll 0 5 true [Timer.new 1000] = [Timer.new 1000] ∧
    (Group.startAll 0 5 false [Timer.new 1000]).get
        ⟨0, by simp [Group.startAll]⟩
      = Timer.startCore 0 (5 + 0) ((Timer.new 1000 : Timer)) := by
  have hmain := startAll_behavior 0 5 [Timer.new 1000] 0 (by norm_num)
  exact ⟨hmain.1, by simpa using hmain.2.2⟩

/-! ## C2: group completion aggregation -/

/-- JS `Set.add`: append if absent, keeping insertion order. -/
def addUnique (l : List Nat) (x : Nat) : List Nat :=
  if x ∈ l then l else l ++ [x]

/-- The aggregation-relevant part of a Group: member timer ids in
insertion order, the `_completedTimers` tracking set, and the
`_onAllCompleteListeners` in registration order.  Per-timer
`isCompleted` flags live in the environment passed to the hook. -/
structure GroupAgg where
  timers : List Nat
  completedTimers : List Nat
  listeners : List Nat
deriving Repr, DecidableEq

/-- `Group.onTimerComplete(timer)`: add the timer to
`_completedTimers`; if every live member has `isCompleted`, fire every
all-complete listener in registration order and clear
`_completedTimers`.  Returns the updated group and the listeners fired
(in order). -/
def GroupAgg.onTimerComplete (completed : Nat → Bool) (g : GroupAgg) (t : Nat) :
    GroupAgg × List Nat :=
  let g1 : GroupAgg := { g with completedTimers := addUnique g.completedTimers t }
  if g1.timers.all completed then
    ({ g1 with completedTimers := [] }, g1.listeners)
  else (g1, [])

/-- C2: `onTimerComplete` records the completed timer in
`completedTimers` and fires the registered all-complete listeners, in
registration order, exactly when every live member is completed; on
firing, `completedTimers` is cleared, and since the firing condition
only consults the live members (never the tracking set), a later
`onTimerComplete` on the already-cleared group fires the listeners
again once every member is completed again. -/
theorem group_onTimerComplete_aggregation (completed : Nat → Bool) (g : GroupAgg) (t : Nat) :
    (g.timers.all completed = true →
      GroupAgg.onTimerComplete completed g t
        = ({ g with completedTimers := [] }, g.listeners)) ∧
    (g.timers.all completed = false →
      GroupAgg.onTimerComplete completed g t
        = ({ g with completedTimers := addUnique g.completedTimers t }, [])) ∧
    t ∈ addUnique g.completedTimers t ∧
    (∀ c2 t2, (GroupAgg.onTimerComplete completed g t).1.timers.all c2 = true →
      (GroupAgg.onTimerComplete c2 (GroupAgg.onTimerComplete completed g t).1 t2).2
        = g.listeners) := by
  refine ⟨?_, ?_, ?_, ?_⟩
  · intro hall
    simp [GroupAgg.onTimerComplete, hall]
  · intro hnot
    simp [GroupAgg.onTimerComplete, hnot]
  · by_cases hmem : t ∈ g.completedTimers
    · simp only [addUnique, if_pos hmem]
      exact hmem
    · simp [addUnique, hmem]
  · intro c2 t2 hall2
    have hl : (GroupAgg.onTimerComplete completed g t).1.listeners = g.listeners := by
      by_cases hall : g.timers.all completed <;> simp [GroupAgg.onTimerComplete, hall]
    generalize hg1 : (GroupAgg.onTimerComplete completed g t).1 = g1 at hall2 hl
    simp [GroupAgg.onTimerComplete, hall2, hl]

/-- Witness for C2: a two-member group where after this completion both
members are completed: the two listeners fire in order and the tracking
set is cleared; and a second full completion fires them again. -/
theorem group_onTimerComplete_aggregation_witness :
    ((⟨[1, 2], [1], [8, 9]⟩ : GroupAgg).timers.all (fun _ => true) = true) ∧
    GroupAgg.onTimerComplete (fun _ => true) ⟨[1, 2], [1], [8, 9]⟩ 2
      = (⟨[1, 2], [], [8, 9]⟩, [8, 9]) ∧
    (GroupAgg.onTimerComplete (fun _ => true)
        (GroupAgg.onTimerComplete (fun _ => true) ⟨[1, 2], [1], [8, 9]⟩ 2).1 1).2
      = [8, 9] := by
  have hmain := group_onTimerComplete_aggregation (fun _ => true) ⟨[1, 2], [1], [8, 9]⟩ 2
  refine ⟨by decide, ?_, ?_⟩
  · have h1 := hmain.1 (by decide)
    simpa [addUnique] using h1
  · exact hmain.2.2.2 (fun _ => true) 1 (by
      have h1 := hmain.1 (by decide)
      rw [h1]
      decide)

/-! ## C8: bidirectional Timer/Group linking; C9: unlink arguments -/

/-- JS `Set.add` on (id, id) pairs: append if absent. -/
def addPair (l : List (Nat × Nat)) (p : Nat × Nat) : List (Nat × Nat) :=
  if p ∈ l then l else l ++ [p]

/-- JS `Set.delete` on (id, id) pairs. -/
def delPair (l : List (Nat × Nat)) (p : Nat × Nat) : List (Nat × Nat) :=
  l.filter (fun q => q ≠ p)

/-- The two sides of the many-to-many Timer/Group relation, kept
separately exactly as the objects keep them: `timerGroups` holds a pair
`(t, g)` when `g ∈ t.groups`; `groupTimers` holds `(g, t)` when
`t ∈ g.timers`. -/
structure LinkState where
  timerGroups : List (Nat × Nat)
  groupTimers : List (Nat × Nat)
deriving Repr, DecidableEq

/-- The membership-mutating operations of the source (each shown with
the two Set mutations it performs, for valid Timer/Group arguments —
`link` filters invalid arguments out before reaching these). -/
inductive LinkOp
  | timerLink (t g : Nat)
  | timerUnlink (t g : Nat)
  | groupAdd (g t : Nat)
  | groupLink (g t : Nat)
  | groupRemove (g t : Nat)
deriving Repr, DecidableEq

/-- One operation: `Timer.link` / `Group.add` / `Group.link` add the
pair on both sides; `Timer.unlink` / `Group.remove` delete it on both
sides. -/
def LinkState.applyOp : LinkState → LinkOp → LinkState
  | s, .timerLink t g => ⟨addPair s.timerGroups (t, g), addPair s.groupTimers (g, t)⟩
  | s, .timerUnlink t g => ⟨delPair s.timerGroups (t, g), delPair s.groupTimers (g, t)⟩
  | s, .groupAdd g t => ⟨addPair s.timerGroups (t, g), addPair s.groupTimers (g, t)⟩
  | s, .groupLink g t => ⟨addPair s.timerGroups (t, g), addPair s.groupTimers (g, t)⟩
  | s, .groupRemove g t => ⟨delPair s.timerGroups (t, g), delPair s.groupTimers (g, t)⟩

/-- A sequence of operations, applied left to right. -/
def LinkState.applyOps (s : LinkState) (ops : List LinkOp) : LinkState :=
  ops.foldl LinkState.applyOp s

/-- The mutual-linking invariant: `t ∈ g.timers ↔ g ∈ t.groups`. -/
def LinkState.Mutual (s : LinkState) : Prop :=
  ∀ t g : Nat, (t, g) ∈ s.timerGroups ↔ (g, t) ∈ s.groupTimers

/-- Every single operation preserves the mutual-linking invariant. -/
lemma applyOp_mutual (s : LinkState) (op : LinkOp) (hs : s.Mutual) :
    (s.applyOp op).Mutual := by
  intro t g
  cases op with
  | timerLink a b =>
    simp only [LinkState.applyOp, addPair]
    by_cases h1 : ((a, b) : Nat × Nat) ∈ s.timerGroups <;>
      by_cases h2 : ((b, a) : Nat × Nat) ∈ s.groupTimers <;>
      simp [h1, h2, hs t g, Prod.ext_iff] <;>
      first
        | (intro h3 h4; exact absurd ((hs a b).mp h1) h2)
        | (intro h3 h4; exact absurd ((hs a b).mpr h2) h1)
        | tauto
  | timerUnlink a b =>
    simp [LinkState.applyOp, delPair, hs t g, Prod.ext_iff, and_comm, List.mem_filter]
    tauto
  | groupAdd a b =>
    simp only [LinkState.applyOp, addPair]
    by_cases h1 : ((b, a) : Nat × Nat) ∈ s.timerGroups <;>
      by_cases h2 : ((a, b) : Nat × Nat) ∈ s.groupTimers <;>
      simp [h1, h2, hs t g, Prod.ext_iff] <;>
      first
        | (intro h3 h4; exact absurd ((hs b a).mp h1) h2)
        | (intro h3 h4; exact absurd ((hs b a).mpr h2) h1)
        | tauto
  | groupLink a b =>
    simp only [LinkState.applyOp, addPair]
    by_cases h1 : ((b, a) : Nat × Nat) ∈ s.timerGroups <;>
      by_cases h2 : ((a, b) : Nat × Nat) ∈ s.groupTimers <;>
      simp [h1, h2, hs t g, Prod.ext_iff] <;>
      first
        | (intro h3 h4; exact absurd ((hs b a).mp h1) h2)
        | (intro h3 h4; exact absurd ((hs b a).mpr h2) h1)
        | tauto
  | groupRemove a b =>
    simp [LinkState.applyOp, delPair, hs t g, Prod.ext_iff, and_comm, List.mem_filter]
    tauto

/-- C8: starting from freshly constructed (unlinked) objects, after any
sequence of `Timer.link`, `Timer.unlink`, `Group.add`, `Group.link`
and `Group.remove` operations, a timer is in `g.timers` exactly when
the group is in `t.groups`. -/
theorem link_bidirectional_invariant (ops : List LinkOp) (t g : Nat) :
    ((t, g) ∈ (LinkState.applyOps ⟨[], []⟩ ops).timerGroups
      ↔ (g, t) ∈ (LinkState.applyOps ⟨[], []⟩ ops).groupTimers) := by
  suffices h : ∀ (s : LinkState), s.Mutual → (LinkState.applyOps s ops).Mutual by
    exact h ⟨[], []⟩ (by intro a b; simp) t g
  intro s hs
  induction ops generalizing s with
  | nil => exact hs
  | cons op rest ih => exact ih (s.applyOp op) (applyOp_mutual s op hs)

/-- A JavaScript value in the position of an `unlink` argument: either
a genuine Group (identified by id, carrying a `timers` Set) or any
other value — primitive, plain object, null — which has no `timers`
Set. -/
inductive JSVal
  | group (g : Nat)
  | nonGroup
deriving Repr, DecidableEq

/-- `Timer.unlink(value)` for one argument.  The body runs
`this.groups.delete(value)` (which never throws: a non-Group value is
simply not in the set) and then `value.timers.delete(this)`, which
throws a TypeError when `value` has no `timers` Set.  For a Group
argument both deletions run unconditionally, members or not. -/
def timerUnlinkArg (s : LinkState) (t : Nat) (v : JSVal) : Except String LinkState :=
  match v with
  | .group g => .ok ⟨delPair s.timerGroups (t, g), delPair s.groupTimers (g, t)⟩
  | .nonGroup => .error "TypeError: value.timers is undefined"

/-- Counterexample to C9: `unlink` called with a non-Group value (for
example a string) throws a TypeError when it dereferences
`value.timers`, so it is not error-free for arguments of every type. -/
theorem unlink_nonGroup_counterexample :
    timerUnlinkArg ⟨[], []⟩ 0 JSVal.nonGroup
      = Except.error "TypeError: value.timers is undefined" := rfl

/-- C9 amended: for Group arguments `unlink` raises no error, and when
the group is not linked to the timer the deletions are no-ops: the
timer keeps its `groups` set (and the group its `timers` set)
unchanged. -/
theorem unlink_group_noop (s : LinkState) (t g : Nat) :
    timerUnlinkArg s t (JSVal.group g)
      = Except.ok ⟨delPair s.timerGroups (t, g), delPair s.groupTimers (g, t)⟩ ∧
    ((t, g) ∉ s.timerGroups → delPair s.timerGroups (t, g) = s.timerGroups) ∧
    ((g, t) ∉ s.groupTimers → delPair s.groupTimers (g, t) = s.groupTimers) := by
  refine ⟨rfl, ?_, ?_⟩ <;>
  · intro hmem
    apply List.filter_eq_self.mpr
    intro q hq
    simp only [ne_eq, decide_eq_true_eq]
    rintro rfl
    exact hmem hq

/-- Witness for the amended C9: timer 0 is linked to group 1 only;
unlinking the unrelated group 2 succeeds and changes nothing. -/
theorem unlink_group_noop_witness :
    timerUnlinkArg ⟨[(0, 1)], [(1, 0)]⟩ 0 (JSVal.group 2)
      = Except.ok ⟨[(0, 1)], [(1, 0)]⟩ := by
  have hmain := unlink_group_noop ⟨[(0, 1)], [(1, 0)]⟩ 0 2
  rw [hmain.1, hmain.2.1 (by decide), hmain.2.2 (by decide)]

/-! ## C5: the sync factory -/

/-- A configuration object as `Maestro.sync` receives them: a
`callback` key (holding a function id) and a `delay` key. -/
structure SyncConfig where
  callback : Nat
  delay : ℚ
deriving Repr, DecidableEq

/-- A JavaScript value in the callback position of the Timer
constructor: an actual function, or a configuration object (what
`Maestro.sync` passes). -/
inductive CbArg
  | fn (f : Nat)
  | obj (c : SyncConfig)
deriving Repr, DecidableEq

/-- The Timer constructor: throws `"Timer requires a callback
function"` unless the callback argument is a function; otherwise
builds the state record (delay defaulting to 1000 when the config has
none) and auto-starts unless disabled. -/
def timerConstruct (cb : CbArg) (cfgDelay : Option ℚ) (autoStart : Bool) :
    Except String World :=
  match cb with
  | .fn _ => .ok (World.init (cfgDelay.getD 1000) autoStart)
  | .obj _ => .error "Timer requires a callback function"

/-- `Maestro.sync(...timerConfigs)`: builds a Group with
`synchronous: true` and, for each configuration in order, executes
`group.add(new Timer(config))` — the WHOLE configuration object is
passed as the constructor callback argument and the constructor config
parameter is left to its `{}` default (delay 1000, autoStart true).  A
constructor throw aborts the loop and propagates. -/
def maestroSync : List SyncConfig → Except String (Bool × List World)
  | [] => .ok (true, [])
  | c :: cs =>
    match timerConstruct (.obj c) none true with
    | .error e => .error e
    | .ok w =>
      match maestroSync cs with
      | .error e => .error e
      | .ok p => .ok (p.1, w :: p.2)

/-- C5 is a code bug: for every non-empty configuration list,
`Maestro.sync` throws `"Timer requires a callback function"` from the
very first Timer construction, because the configuration object — not
its `callback` field — is passed as the callback; it never returns a
Group.  The second conjunct shows that the same constructor succeeds
when an actual function reaches the callback position, pinpointing the
slip. -/
theorem maestro_sync_throws (c : SyncConfig) (cs : List SyncConfig) (f : Nat) (d : ℚ) :
    maestroSync (c :: cs) = Except.error "Timer requires a callback function" ∧
    timerConstruct (.fn f) (some d) true = Except.ok (World.init d true) := ⟨rfl, rfl⟩
